import Mathlib

/-!
Verification of the `kahan` crate (compensated floating-point summation).

The crate is generic over `T: Float`; its documentation, doctests and unit
test all instantiate `T = f32`, so the embedding models IEEE-754 binary32
exactly.  A binary32 value is `nan`, a signed infinity, or a signed finite
value `± m * 2^e` kept in the canonical form used by the hardware
(`m = 0`, or `m < 2^23` with `e = -149` for subnormals, or
`2^23 ≤ m < 2^24` with `-149 ≤ e ≤ 104` for normals).  Addition and
subtraction are the exact mathematical result rounded to nearest, ties to
even, with the IEEE sign rules for zero results; everything is executable
over `ℤ`/`ℕ` so concrete claims can be settled by `decide`.
-/

/-- IEEE-754 binary32 values: not-a-number, signed infinities, and signed
finite values `(-1)^sign * m * 2^e` (`sign = true` means negative). -/
inductive F32 where
  | nan : F32
  | inf : Bool → F32
  | finite : Bool → ℤ → ℕ → F32
deriving DecidableEq, Repr

/-- The value `+0.0` (`T::zero()` in the source). -/
def fzero : F32 := .finite false (-149) 0

/-- The value `-0.0`. -/
def mzero : F32 := .finite true (-149) 0

/-- Canonical (hardware-representable) finite encodings: zero and
subnormals carry the minimum exponent `-149`; normals have a 24-bit
mantissa with its top bit set and exponent between `-149` and `104`. -/
def F32.Canonical : F32 → Prop
  | .nan => True
  | .inf _ => True
  | .finite _ e m => (e = -149 ∧ m < 2 ^ 23) ∨
      (2 ^ 23 ≤ m ∧ m < 2 ^ 24 ∧ -149 ≤ e ∧ e ≤ 104)

instance : DecidablePred F32.Canonical := by
  intro x
  cases x <;> simp [F32.Canonical] <;> infer_instance

/-- Signed magnitude as an integer. -/
def sgnMag (s : Bool) (m : ℕ) : ℤ := if s then -(m : ℤ) else (m : ℤ)

/-- Floor of the base-2 logarithm, by fuel recursion (the fuel is the
number itself, so the definition unfolds in the kernel). -/
def nlog2F : ℕ → ℕ → ℕ
  | 0, _ => 0
  | f + 1, n => if n < 2 then 0 else nlog2F f (n / 2) + 1

/-- Floor of the base-2 logarithm of a positive natural number. -/
def nlog2 (n : ℕ) : ℕ := nlog2F n n

/-- Decides `2^g ≤ a/d` for a positive rational `a/d`. -/
def le2pow (g : ℤ) (a d : ℕ) : Bool :=
  if 0 ≤ g then decide (2 ^ g.toNat * d ≤ a) else decide (d ≤ a * 2 ^ (-g).toNat)

/-- Floor of the base-2 logarithm of the positive rational `a/d`. -/
def flog2 (a d : ℕ) : ℤ :=
  let g : ℤ := (nlog2 a : ℤ) - (nlog2 d : ℤ)
  if le2pow g a d then g else g - 1

/-- Rounds the nonnegative rational `a/d` (with `d > 0`) to a natural
number, to nearest with ties to even. -/
def rneNat (a d : ℕ) : ℕ :=
  let q := a / d
  let r := a % d
  if 2 * r < d then q
  else if d < 2 * r then q + 1
  else if q % 2 = 0 then q else q + 1

/-- Rounds `(a/d) / 2^e` to a natural number, to nearest, ties to even. -/
def mantAt (a d : ℕ) (e : ℤ) : ℕ :=
  if 0 ≤ e then rneNat a (d * 2 ^ e.toNat) else rneNat (a * 2 ^ (-e).toNat) d

/-- Rounds the positive rational `a/d` to binary32 with sign `s`
(round to nearest, ties to even; overflow to infinity). -/
def roundPos (a d : ℕ) (s : Bool) : F32 :=
  let g := flog2 a d
  let e := max (-149) (g - 23)
  let m := mantAt a d e
  if m = 2 ^ 24 then
    if e + 1 ≤ 104 then .finite s (e + 1) (2 ^ 23) else .inf s
  else
    if e ≤ 104 then .finite s e m else .inf s

/-- Rounds the rational `n/d` (with `d > 0`) to binary32; an exactly zero
argument yields `+0.0`. -/
def roundF32 (n : ℤ) (d : ℕ) : F32 :=
  if n < 0 then roundPos n.natAbs d true
  else if n = 0 then fzero
  else roundPos n.natAbs d false

/-- Rounds the dyadic rational `n * 2^E` to binary32. -/
def roundDy (n : ℤ) (E : ℤ) : F32 :=
  if 0 ≤ E then roundF32 (n * 2 ^ E.toNat) 1 else roundF32 n (2 ^ (-E).toNat)

/-- Negation (`-x`): flips the sign, including on zeros and infinities. -/
def F32.neg : F32 → F32
  | .nan => .nan
  | .inf s => .inf (!s)
  | .finite s e m => .finite (!s) e m

/-- IEEE-754 binary32 addition, round to nearest, ties to even.  A nan
operand propagates; opposite infinities give nan; the sum of two finite
operands is the exactly computed dyadic sum rounded back to binary32,
with the round-to-nearest sign convention that an exactly zero result is
`+0.0` unless both operands are zeros of the same sign.  An operand that
is a zero leaves the other (canonical) operand unchanged, as the exact
rounded result does. -/
def fadd : F32 → F32 → F32
  | .nan, _ => .nan
  | _, .nan => .nan
  | .inf s, .inf t => if s = t then .inf s else .nan
  | .inf s, .finite _ _ _ => .inf s
  | .finite _ _ _, .inf t => .inf t
  | .finite s1 e1 m1, .finite s2 e2 m2 =>
    if m1 = 0 && m2 = 0 then (if s1 = s2 then .finite s1 (-149) 0 else fzero)
    else if m1 = 0 then .finite s2 e2 m2
    else if m2 = 0 then .finite s1 e1 m1
    else
      let E := min e1 e2
      let n := sgnMag s1 m1 * 2 ^ (e1 - E).toNat + sgnMag s2 m2 * 2 ^ (e2 - E).toNat
      if n = 0 then fzero else roundDy n E

/-- IEEE-754 binary32 subtraction: `x - y = x + (-y)`. -/
def fsub (x y : F32) : F32 := fadd x y.neg

/-- Absolute value (`Float::abs` in the source). -/
def F32.abs : F32 → F32
  | .nan => .nan
  | .inf _ => .inf false
  | .finite _ e m => .finite false e m

/-- IEEE-754 comparison `x < y` (`PartialOrd` on floats): any comparison
involving nan is false; otherwise compares the represented values. -/
def flt : F32 → F32 → Bool
  | .nan, _ => false
  | _, .nan => false
  | .inf s, .inf t => s && !t
  | .inf s, .finite _ _ _ => s
  | .finite _ _ _, .inf t => !t
  | .finite s1 e1 m1, .finite s2 e2 m2 =>
    let E := min e1 e2
    decide (sgnMag s1 m1 * 2 ^ (e1 - E).toNat < sgnMag s2 m2 * 2 ^ (e2 - E).toNat)

/-- IEEE-754 equality `x == y` (`PartialEq` on floats): nan compares
unequal to everything, `+0.0 == -0.0`, otherwise value equality. -/
def ieeeEq : F32 → F32 → Bool
  | .nan, _ => false
  | _, .nan => false
  | .inf s, .inf t => s == t
  | .inf _, .finite _ _ _ => false
  | .finite _ _ _, .inf _ => false
  | .finite s1 e1 m1, .finite s2 e2 m2 =>
    let E := min e1 e2
    decide (sgnMag s1 m1 * 2 ^ (e1 - E).toNat = sgnMag s2 m2 * 2 ^ (e2 - E).toNat)

/-- Two binary32 values that a program cannot tell apart by their value:
structurally equal, or equal under IEEE `==` (which identifies the two
zeros; nan stays equivalent to itself via the first disjunct). -/
def F32.eqv (x y : F32) : Prop := x = y ∨ ieeeEq x y = true

/-- Whether a value is finite (neither nan nor an infinity). -/
def F32.isFinite : F32 → Bool
  | .finite _ _ _ => true
  | _ => false

/-- The accumulator type of the crate: `struct KahanSum<T: Float> { sum: T, err: T }`,
at `T = f32`.  The field projections model the accessors `sum()` and `err()`. -/
structure KahanSum where
  sum : F32
  err : F32
deriving DecidableEq, Repr

/-- `KahanSum::new()` (also `Default::default()`): sum and err are `T::zero()`. -/
def KahanSum.new : KahanSum := ⟨fzero, fzero⟩

/-- `KahanSum::new_with_value(initial)`: starting sum `initial`, err zero. -/
def KahanSum.new_with_value (initial : F32) : KahanSum := ⟨initial, fzero⟩

/-- `impl AddAssign<T> for KahanSum<T>`, translated line by line:
if `self.sum.abs() < rhs.abs()` the stored sum and the incoming term are
swapped; then `y = rhs - self.err`, `sum = self.sum + y`,
`err = (sum - self.sum) - y`, and both fields are stored back. -/
def KahanSum.addAssign (k : KahanSum) (rhs : F32) : KahanSum :=
  let p := if flt k.sum.abs rhs.abs then (rhs, k.sum) else (k.sum, rhs)
  let y := fsub p.2 k.err
  let sum := fadd p.1 y
  let err := fsub (fsub sum p.1) y
  ⟨sum, err⟩

/-- `impl Add<T> for KahanSum<T>`: copies `self` and applies `+=` to the copy. -/
def KahanSum.add (k : KahanSum) (rhs : F32) : KahanSum := k.addAssign rhs

/-- `KahanSummator::kahan_sum`: folds the iterator left-to-right through
`KahanSum::new()` using the `+` operator (`self.fold(KahanSum::new(), |sum, item| sum + *item.borrow())`);
the iterator of borrowable items is modelled as a list of values. -/
def kahanSum (l : List F32) : KahanSum :=
  l.foldl (fun acc x => acc.add x) KahanSum.new

/-- The six-step single-term addition algorithm exactly as §4.1 of the spec
states it: `a = sum`, `b = term`; if `|a| < |b|` swap `a` and `b`;
`y = b - err`; `new_sum = a + y`; `new_err = (new_sum - a) - y`;
store `sum = new_sum`, `err = new_err`. -/
def specAdd (k : KahanSum) (term : F32) : KahanSum :=
  let a := k.sum
  let b := term
  let p := if flt a.abs b.abs then (b, a) else (a, b)
  let y := fsub p.2 k.err
  let newSum := fadd p.1 y
  let newErr := fsub (fsub newSum p.1) y
  ⟨newSum, newErr⟩

/-- The binary32 literal `10000.0f32`. -/
def lit10000 : F32 := roundF32 10000 1

/-- The binary32 literal `3.14159f32`. -/
def litPi : F32 := roundF32 314159 100000

/-- The binary32 literal `2.71828f32`. -/
def litE : F32 := roundF32 271828 100000

/-- The binary32 literal `10003.142f32`. -/
def litSumA : F32 := roundF32 10003142 1000

/-- The binary32 literal `0.000011444092f32`. -/
def litErrA : F32 := roundF32 11444092 1000000000000

/-- The binary32 literal `1.0f32`. -/
def one : F32 := .finite false (-23) (2 ^ 23)

/-- The binary32 value `2^-24` (one half unit in the last place of `1.0`). -/
def eps24 : F32 := .finite false (-47) (2 ^ 23)

/-- The smallest positive binary32 subnormal, `2^-149`. -/
def minSub : F32 := .finite false (-149) 1

/-- The summand list of the crate's unit test `it_works`. -/
def testList : List F32 := [lit10000, litPi, litE, litPi, litE, litPi, litE]

/-- Exact value of a finite binary32 as a dyadic pair `(n, e)` meaning
`n * 2^e` (nonfinite values are sent to `0`, unused). -/
def F32.toDy : F32 → ℤ × ℤ
  | .finite s e m => (sgnMag s m, e)
  | _ => (0, 0)

/-- Exact addition of dyadic rationals. -/
def dyAdd (x y : ℤ × ℤ) : ℤ × ℤ :=
  (x.1 * 2 ^ (x.2 - min x.2 y.2).toNat + y.1 * 2 ^ (y.2 - min x.2 y.2).toNat,
    min x.2 y.2)

/-- Exact subtraction of dyadic rationals. -/
def dySub (x y : ℤ × ℤ) : ℤ × ℤ :=
  (x.1 * 2 ^ (x.2 - min x.2 y.2).toNat - y.1 * 2 ^ (y.2 - min x.2 y.2).toNat,
    min x.2 y.2)

/-- Exact comparison `|x| < |y|` on dyadic rationals. -/
def dyAbsLt (x y : ℤ × ℤ) : Bool :=
  decide (|x.1 * 2 ^ (x.2 - min x.2 y.2).toNat| < |y.1 * 2 ^ (y.2 - min x.2 y.2).toNat|)

/-- Exact comparison `|x| ≤ |y|` on dyadic rationals. -/
def dyAbsLe (x y : ℤ × ℤ) : Bool :=
  decide (|x.1 * 2 ^ (x.2 - min x.2 y.2).toNat| ≤ |y.1 * 2 ^ (y.2 - min x.2 y.2).toNat|)

/-- Exact (infinitely precise) total of the values of a list of finite
binary32 numbers, as a dyadic rational. -/
def trueTotal (l : List F32) : ℤ × ℤ := (l.map F32.toDy).foldl dyAdd (0, 0)

/-- Plain sequential binary32 addition of a list, starting from `0.0`. -/
def naiveSum (l : List F32) : F32 := l.foldl fadd fzero

set_option maxRecDepth 40000

section Lemmas

/-- Double negation is the identity on binary32 values. -/
theorem F32.neg_neg (x : F32) : x.neg.neg = x := by
  cases x <;> simp [F32.neg]

/-- A nan left operand propagates through addition. -/
theorem fadd_nan_left (y : F32) : fadd .nan y = .nan := by
  cases y <;> rfl

/-- A nan right operand propagates through addition. -/
theorem fadd_nan_right (x : F32) : fadd x .nan = .nan := by
  cases x <;> rfl

/-- Comparisons with nan on the right are false. -/
theorem flt_nan_right (x : F32) : flt x .nan = false := by
  cases x <;> rfl

/-- Adding positive zero to a nonzero finite value leaves it unchanged. -/
theorem fadd_zero_right (s : Bool) (e : ℤ) (m : ℕ) (hm : m ≠ 0) :
    fadd (.finite s e m) fzero = .finite s e m := by
  simp [fadd, fzero, hm]

/-- Subtracting a nonzero finite value from itself gives positive zero. -/
theorem fsub_cancel (s : Bool) (e : ℤ) (m : ℕ) (hm : m ≠ 0) :
    fsub (.finite s e m) (.finite s e m) = fzero := by
  cases s <;> simp [fsub, F32.neg, fadd, hm, sgnMag]

/-- Subtracting positive zero from itself gives positive zero. -/
theorem fsub_zzero : fsub fzero fzero = fzero := by decide

/-- The magnitude test `|0.0| < |x|` succeeds for nonzero finite `x`
whose exponent is in the binary32 range. -/
theorem flt_zero_abs (s : Bool) (e : ℤ) (m : ℕ) (hm : m ≠ 0) (he : -149 ≤ e) :
    flt fzero.abs (F32.finite s e m).abs = true := by
  simp only [fzero, F32.abs, flt, sgnMag, if_neg Bool.false_ne_true, decide_eq_true_iff]
  have hmin : min (-149 : ℤ) e = -149 := min_eq_left he
  rw [hmin]
  have h1 : (0 : ℤ) < (m : ℤ) * 2 ^ (e - -149).toNat := by
    have : (0 : ℤ) < (m : ℤ) := by exact_mod_cast Nat.pos_of_ne_zero hm
    positivity
  simpa using h1

/-- The magnitude test `|x| < |0.0|` always fails (for nan it is false,
and no absolute value is below zero). -/
theorem flt_abs_zero (x : F32) : flt x.abs fzero.abs = false := by
  cases x with
  | nan => rfl
  | inf s => rfl
  | finite s e m =>
    simp only [fzero, F32.abs, flt, sgnMag, if_neg Bool.false_ne_true, decide_eq_false_iff_not]
    intro h
    have h0 : (0 : ℤ) ≤ (m : ℤ) * 2 ^ (e - min e (-149)).toNat := by positivity
    simp at h
    omega

/-- Adding a nonzero finite canonical value to the empty accumulator
swaps it into the base slot and stores it exactly, with zero error. -/
theorem add_new_pos (s : Bool) (e : ℤ) (m : ℕ) (hm : m ≠ 0) (he : -149 ≤ e) :
    KahanSum.new.add (.finite s e m) = ⟨.finite s e m, fzero⟩ := by
  show KahanSum.addAssign ⟨fzero, fzero⟩ (.finite s e m) = _
  simp only [KahanSum.addAssign, flt_zero_abs s e m hm he, if_true]
  rw [fsub_zzero, fadd_zero_right s e m hm, fsub_cancel s e m hm, fsub_zzero]

/-- IEEE equality is reflexive on finite values. -/
theorem ieeeEq_refl_finite (s : Bool) (e : ℤ) (m : ℕ) :
    ieeeEq (.finite s e m) (.finite s e m) = true := by
  simp [ieeeEq]

end Lemmas

/-- C1: for every accumulator state and every incoming term, the in-place
add operation (`AddAssign::add_assign`) performs exactly the spec's
six-step algorithm: `a = sum`, `b = term`; swap when `|a| < |b|`;
`y = b - err`; `new_sum = a + y`; `new_err = (new_sum - a) - y`;
store `sum = new_sum`, `err = new_err`. -/
theorem add_assign_is_spec_algorithm (k : KahanSum) (term : F32) :
    k.addAssign term = specAdd k term := rfl

/-- C2: `kahan_sum` is the left-to-right fold of the single-term add
operation starting from the empty accumulator, and on the empty sequence
it returns exactly `KahanSum::new()` (sum `0`, err `0`). -/
theorem kahan_sum_is_foldl :
    (∀ l : List F32, kahanSum l = l.foldl KahanSum.addAssign KahanSum.new)
    ∧ kahanSum [] = KahanSum.new
    ∧ KahanSum.new = ⟨fzero, fzero⟩ :=
  ⟨fun _ => rfl, rfl, rfl⟩

/-- C3: the value-returning addition (`Add::add`, which copies `self` and
applies `+=` to the copy) produces exactly the accumulator that the
in-place addition produces on the same state and term. -/
theorem add_refines_add_assign (k : KahanSum) (term : F32) :
    k.add term = k.addAssign term := rfl

/-- C7: `new()` has sum `0` and err `0`; `new_with_value(v)` has sum `v`
and err `0`; the accessors return exactly the stored fields (they are
pure field reads and leave the accumulator unchanged). -/
theorem constructors_and_accessors :
    KahanSum.new.sum = fzero ∧ KahanSum.new.err = fzero
    ∧ (∀ v : F32, (KahanSum.new_with_value v).sum = v
        ∧ (KahanSum.new_with_value v).err = fzero)
    ∧ (∀ k : KahanSum, k = ⟨k.sum, k.err⟩) :=
  ⟨rfl, rfl, fun _ => ⟨rfl, rfl⟩, fun _ => rfl⟩

/-- C9: adding `10000.0f32` and then `3.14159f32` to an empty accumulator
yields exactly the binary32 values `10003.142` and `0.000011444092` for
the sum and the error (the crate's doctest scenario). -/
theorem concrete_scenario_a :
    ((KahanSum.new.add lit10000).add litPi).sum = litSumA
    ∧ ((KahanSum.new.add lit10000).add litPi).err = litErrA := by
  constructor <;> decide

/-- C4 counterexample: on the crate's own test sequence (a large term
followed by small terms whose naive binary32 sum loses precision),
`current_sum() + current_error()` is NOT closer to the true total than
`current_sum()` alone — it is strictly farther.  The stored error has
the sign of the rounding excess, so adding it doubles the error. -/
theorem reconstruct_plus_err_not_closer :
    dyAbsLt
      (dySub (dyAdd (kahanSum testList).sum.toDy (kahanSum testList).err.toDy)
        (trueTotal testList))
      (dySub (kahanSum testList).sum.toDy (trueTotal testList)) = false
    ∧ dyAbsLt
      (dySub (kahanSum testList).sum.toDy (trueTotal testList))
      (dySub (dyAdd (kahanSum testList).sum.toDy (kahanSum testList).err.toDy)
        (trueTotal testList)) = true := by
  constructor <;> decide

/-- C4 (amended): on the crate's test sequence — a large term followed by
many small terms whose naive binary32 sum loses precision —
`kahan_sum(...).current_sum()` is at least as close to the true
(infinitely precise) total as plain sequential binary32 addition, and
`current_sum()` MINUS `current_error()` reconstructs strictly closer to
the true total than `current_sum()` alone. -/
theorem kahan_beats_naive_on_test_sequence :
    dyAbsLe (dySub (kahanSum testList).sum.toDy (trueTotal testList))
      (dySub (naiveSum testList).toDy (trueTotal testList)) = true
    ∧ dyAbsLt
      (dySub (dySub (kahanSum testList).sum.toDy (kahanSum testList).err.toDy)
        (trueTotal testList))
      (dySub (kahanSum testList).sum.toDy (trueTotal testList)) = true := by
  constructor <;> decide

/-- C5 counterexample: adding positive infinity to a freshly created
empty accumulator leaves `current_error()` equal to nan, not `0`
(`err = (inf - inf) - 0.0`), so the claim fails for non-finite inputs. -/
theorem add_inf_to_empty_err_nan :
    (KahanSum.new.add (F32.inf false)).err = F32.nan
    ∧ (KahanSum.new.add (F32.inf false)).err ≠ fzero := by
  constructor <;> decide

/-- C5 (amended): for every FINITE value `x` (in canonical binary32 form),
adding `x` to a freshly created empty accumulator yields a `current_sum()`
that compares IEEE-equal to `x` and a `current_error()` of exactly `+0.0`.
(For `x = -0.0` the stored sum is `+0.0`, IEEE-equal to `x`; for
infinities and nan the error becomes nan instead.) -/
theorem add_to_empty_exact (x : F32) (hc : x.Canonical) (hf : x.isFinite = true) :
    ieeeEq (KahanSum.new.add x).sum x = true
    ∧ (KahanSum.new.add x).err = fzero := by
  cases x with
  | nan => simp [F32.isFinite] at hf
  | inf s => simp [F32.isFinite] at hf
  | finite s e m =>
    by_cases hm : m = 0
    · subst hm
      have he : e = -149 := by
        rcases hc with ⟨h1, _⟩ | ⟨h1, _⟩
        · exact h1
        · exact absurd h1 (by simp)
      subst he
      cases s <;> exact ⟨by decide, by decide⟩
    · have he : -149 ≤ e := by
        rcases hc with ⟨h1, _⟩ | ⟨_, _, h2, _⟩
        · omega
        · exact h2
      rw [add_new_pos s e m hm he]
      exact ⟨ieeeEq_refl_finite s e m, rfl⟩

/-- C5 witness: the amended theorem applied at the concrete finite input
`1.0f32`. -/
theorem add_to_empty_exact_witness :
    ieeeEq (KahanSum.new.add one).sum one = true
    ∧ (KahanSum.new.add one).err = fzero :=
  add_to_empty_exact one (by decide) (by decide)

/-- C6 counterexample: for `v = nan`, `new_with_value(v)` has error `+0.0`
but `new()` followed by `add(v)` has error nan, so it is false that both
accumulators have `current_error() == 0` immediately afterwards. -/
theorem seeded_vs_added_nan_err :
    (KahanSum.new_with_value F32.nan).err = fzero
    ∧ (KahanSum.new.add F32.nan).err = F32.nan
    ∧ (KahanSum.new.add F32.nan).err ≠ fzero := by
  refine ⟨by decide, by decide, by decide⟩

/-- C6 (amended): for every FINITE value `v` (in canonical binary32 form),
`new_with_value(v)` has a `current_sum()` that compares IEEE-equal to the
one obtained from `new()` followed by `add(v)`, and both accumulators
have `current_error()` exactly `+0.0` immediately afterwards.  (For
infinite or nan `v` the added accumulator's error is nan instead.) -/
theorem seeded_matches_added (v : F32) (hc : v.Canonical) (hf : v.isFinite = true) :
    ieeeEq (KahanSum.new_with_value v).sum (KahanSum.new.add v).sum = true
    ∧ (KahanSum.new_with_value v).err = fzero
    ∧ (KahanSum.new.add v).err = fzero := by
  cases v with
  | nan => simp [F32.isFinite] at hf
  | inf s => simp [F32.isFinite] at hf
  | finite s e m =>
    by_cases hm : m = 0
    · subst hm
      have he : e = -149 := by
        rcases hc with ⟨h1, _⟩ | ⟨h1, _⟩
        · exact h1
        · exact absurd h1 (by simp)
      subst he
      cases s <;> exact ⟨by decide, by decide, by decide⟩
    · have he : -149 ≤ e := by
        rcases hc with ⟨h1, _⟩ | ⟨_, _, h2, _⟩
        · omega
        · exact h2
      rw [add_new_pos s e m hm he]
      exact ⟨ieeeEq_refl_finite s e m, rfl, rfl⟩

/-- Adding anything to a non-finite value stays non-finite. -/
theorem fadd_nonfinite_left (x y : F32) (h : x.isFinite = false) :
    (fadd x y).isFinite = false := by
  cases x with
  | nan => rw [fadd_nan_left]; rfl
  | inf s =>
    cases y with
    | nan => rfl
    | inf t =>
      simp only [fadd]
      split <;> rfl
    | finite a b c => rfl
  | finite a b c => simp [F32.isFinite] at h

/-- After the magnitude-ordering step of `add_assign`, if the base
operand is non-finite then both stored fields come out non-finite: the
new sum is `base + y` and the new error subtracts the non-finite new sum
twice more. -/
theorem add_assign_nonfinite_base (k : KahanSum) (t : F32)
    (h : (if flt k.sum.abs t.abs then (t, k.sum) else (k.sum, t)).1.isFinite = false) :
    (k.addAssign t).sum.isFinite = false ∧ (k.addAssign t).err.isFinite = false := by
  obtain ⟨ks, ke⟩ := k
  simp only [KahanSum.addAssign, fsub] at h ⊢
  refine ⟨fadd_nonfinite_left _ _ h, ?_⟩
  exact fadd_nonfinite_left _ _ (fadd_nonfinite_left _ _ (fadd_nonfinite_left _ _ h))

/-- C8: special values are not rejected or special-cased but flow through
the compensated addition: a nan term drives both stored fields to nan; a
state whose sum is already nan stays at nan whatever is added (so nan
anywhere in a `kahan_sum` input poisons the result, per ordinary
floating-point rules); and adding an infinite term leaves both stored
fields non-finite (an infinity or, through `inf - inf`, nan).  Every
operation of the embedding is a total function, so no input can make the
component fail. -/
theorem special_values_propagate :
    (∀ k : KahanSum, k.addAssign F32.nan = ⟨F32.nan, F32.nan⟩)
    ∧ (∀ (k : KahanSum) (t : F32), k.sum = F32.nan →
        k.addAssign t = ⟨F32.nan, F32.nan⟩)
    ∧ (∀ (k : KahanSum) (s : Bool),
        (k.addAssign (F32.inf s)).sum.isFinite = false
        ∧ (k.addAssign (F32.inf s)).err.isFinite = false) := by
  refine ⟨?_, ?_, ?_⟩
  · intro ⟨ks, ke⟩
    have habs : F32.abs .nan = .nan := rfl
    simp only [KahanSum.addAssign, habs, flt_nan_right, Bool.false_eq_true, if_false,
      fsub, fadd_nan_left, fadd_nan_right]
  · intro ⟨ks, ke⟩ t h
    cases h
    simp only [KahanSum.addAssign, F32.abs, flt, fsub, fadd_nan_left, fadd_nan_right,
      Bool.false_eq_true, if_false]
  · intro k s
    apply add_assign_nonfinite_base
    cases hs : k.sum with
    | nan => simp [F32.abs, flt, F32.isFinite]
    | inf t => simp [F32.abs, flt, F32.isFinite]
    | finite a b c => simp [F32.abs, flt, F32.isFinite]

/-- C8 witness: the nan-propagation parts applied at concrete inputs: a
state with sum `1.0` receives a nan term, and a state already poisoned
with a nan sum receives the finite term `1.0`. -/
theorem special_values_propagate_witness :
    KahanSum.addAssign ⟨one, fzero⟩ F32.nan = ⟨F32.nan, F32.nan⟩
    ∧ KahanSum.addAssign ⟨F32.nan, fzero⟩ one = ⟨F32.nan, F32.nan⟩
    ∧ ((KahanSum.addAssign ⟨one, fzero⟩ (F32.inf false)).sum.isFinite = false
        ∧ (KahanSum.addAssign ⟨one, fzero⟩ (F32.inf false)).err.isFinite = false) :=
  ⟨special_values_propagate.1 ⟨one, fzero⟩,
    special_values_propagate.2.1 ⟨F32.nan, fzero⟩ one rfl,
    special_values_propagate.2.2 ⟨one, fzero⟩ false⟩

/-- Subtracting a canonical value other than `+0.0` from `+0.0` is exact
negation (for `+0.0` itself the result is `+0.0`, not `-0.0`). -/
theorem fsub_zero_neg (x : F32) (hc : x.Canonical) (hx : x ≠ fzero) :
    fsub fzero x = x.neg := by
  cases x with
  | nan => exact fadd_nan_right _
  | inf t => cases t <;> rfl
  | finite t e m =>
    by_cases hm : m = 0
    · subst hm
      have he : e = -149 := by
        rcases hc with ⟨h1, _⟩ | ⟨h1, _⟩
        · exact h1
        · exact absurd h1 (by simp)
      subst he
      cases t with
      | false => exact absurd rfl hx
      | true => decide
    · simp [fsub, fadd, F32.neg, fzero, hm]

/-- Adding `+0.0` and adding `-0.0` to the same value give results that
are equal or both zeros (they differ only when the value is `-0.0`:
`-0.0 + 0.0 = +0.0` while `-0.0 + -0.0 = -0.0`). -/
theorem fadd_zero_sign_eqv (d : F32) :
    F32.eqv (fadd d fzero) (fadd d mzero) ∧ F32.eqv (fadd d mzero) (fadd d fzero) := by
  cases d with
  | nan => exact ⟨Or.inl rfl, Or.inl rfl⟩
  | inf t => exact ⟨Or.inl rfl, Or.inl rfl⟩
  | finite t e m =>
    by_cases hm : m = 0
    · subst hm
      cases t
      · have h1 : fadd (.finite false e 0) fzero = fzero := by simp [fadd, fzero]
        have h2 : fadd (.finite false e 0) mzero = fzero := by simp [fadd, fzero, mzero]
        rw [h1, h2]
        exact ⟨Or.inl rfl, Or.inl rfl⟩
      · have h1 : fadd (.finite true e 0) fzero = fzero := by simp [fadd, fzero, mzero]
        have h2 : fadd (.finite true e 0) mzero = mzero := by simp [fadd, fzero, mzero]
        rw [h1, h2]
        exact ⟨Or.inr (by decide), Or.inr (by decide)⟩
    · constructor <;> exact Or.inl (by simp [fadd, fzero, mzero, hm])

/-- C10 counterexample: the state `(1.0, 2^-149)` has a nonzero error
term, yet adding the term `0.0` leaves the stored sum unchanged
(`1.0 - 2^-149` rounds back to `1.0`), refuting "when err is nonzero the
stored sum changes". -/
theorem add_zero_can_preserve_sum :
    (KahanSum.addAssign ⟨one, minSub⟩ fzero).sum = one
    ∧ minSub ≠ fzero ∧ minSub ≠ mzero := by
  refine ⟨by decide, by decide, by decide⟩

/-- C10 (amended): adding the term `0.0` is not a no-op.  For every
canonical state `(sum, err)` the magnitude test `|sum| < |0.0|` is false
so no swap occurs, the new sum is (IEEE-equal to) the floating-point
result of `sum - err`, and the new error is (IEEE-equal to)
`(new_sum - sum) + err`.  For SOME states with nonzero `err` the stored
sum changes — e.g. `(1.0, 2^-24)` — so `0.0` is not an identity element
on accumulator states; but when `err` is too small relative to `sum` the
subtraction rounds back to `sum` and the stored sum does not change. -/
theorem add_zero_behaviour (k : KahanSum)
    (hs : k.sum.Canonical) (he : k.err.Canonical) :
    flt k.sum.abs fzero.abs = false
    ∧ F32.eqv (k.addAssign fzero).sum (fsub k.sum k.err)
    ∧ F32.eqv (k.addAssign fzero).err
        (fadd (fsub (k.addAssign fzero).sum k.sum) k.err)
    ∧ (∃ k' : KahanSum, k'.err ≠ fzero ∧ k'.err ≠ mzero
        ∧ (k'.addAssign fzero).sum ≠ k'.sum) := by
  obtain ⟨ks, ke⟩ := k
  have hswap : flt (F32.abs ks) (F32.abs fzero) = false := flt_abs_zero ks
  refine ⟨hswap, ?_, ?_, ⟨⟨one, eps24⟩, by decide, by decide, by decide⟩⟩ <;>
    simp only [KahanSum.addAssign, hswap, Bool.false_eq_true, if_false] <;>
    by_cases hke : ke = fzero
  · subst hke
    rw [fsub_zzero]
    show F32.eqv (fadd ks fzero) (fadd ks (F32.neg fzero))
    exact (fadd_zero_sign_eqv ks).1
  · rw [fsub_zero_neg ke he hke]
    exact Or.inl rfl
  · subst hke
    rw [fsub_zzero]
    show F32.eqv (fadd (fadd (fadd ks fzero) (F32.neg ks)) (F32.neg fzero))
      (fadd (fadd (fadd ks fzero) (F32.neg ks)) fzero)
    exact (fadd_zero_sign_eqv _).2
  · rw [fsub_zero_neg ke he hke]
    show F32.eqv (fadd (fadd (fadd ks ke.neg) (F32.neg ks)) ke.neg.neg)
      (fadd (fadd (fadd ks ke.neg) (F32.neg ks)) ke)
    rw [F32.neg_neg]
    exact Or.inl rfl

/-- C10 witness: the amended theorem applied at the concrete canonical
state `(1.0, 2^-24)`, for which the stored sum does change. -/
theorem add_zero_behaviour_witness :
    flt one.abs fzero.abs = false
    ∧ F32.eqv (KahanSum.addAssign ⟨one, eps24⟩ fzero).sum (fsub one eps24)
    ∧ F32.eqv (KahanSum.addAssign ⟨one, eps24⟩ fzero).err
        (fadd (fsub (KahanSum.addAssign ⟨one, eps24⟩ fzero).sum one) eps24)
    ∧ (∃ k' : KahanSum, k'.err ≠ fzero ∧ k'.err ≠ mzero
        ∧ (k'.addAssign fzero).sum ≠ k'.sum) :=
  add_zero_behaviour ⟨one, eps24⟩ (by decide) (by decide)

/-- C6 witness: the amended theorem applied at the concrete finite input
`1.0f32`. -/
theorem seeded_matches_added_witness :
    ieeeEq (KahanSum.new_with_value one).sum (KahanSum.new.add one).sum = true
    ∧ (KahanSum.new_with_value one).err = fzero
    ∧ (KahanSum.new.add one).err = fzero :=
  seeded_matches_added one (by decide) (by decide)
